import Mathlib

/-!
# Tunnel transport dispatcher (bcs-user-manager, tunnel-handler/mesos/tunnel-dialer.go)

A shallow embedding of `WsTunnelDispatcher.LookupWsTransport` and `LookupWsDialer`.

* Go maps become association lists (`GoMap`); reading a key that is absent, or reading through
  a nil inner map, yields `none`, as in Go.
* `*http.Transport` pointers are indices into the heap `Process.transports`; a composite
  literal `&http.Transport{...}` allocates the next free index.
* `*WsTunnelDispatcher` pointers are addresses in `Process.dispatchers`.
* The collaborators that are not part of the file (the credential store, `rand.Shuffle`,
  the tunnel server) are the fields of `World`, one snapshot per call.
* Calls to the tunnel server and `CloseIdleConnections` are recorded in `Process.trace`.
-/

namespace Mesos

/-! ## Data model -/

/-- The two fields of a websocket cluster credential that the dispatcher reads. -/
structure Credential where
  ServerKey : String
  ServerAddress : String
deriving DecidableEq, Repr

/-- A value of the Go func type `websocketDialer.Dialer`: `none` is the nil func, `some d` the
closure with identity `d`. -/
abbrev Dialer := Option Nat

/-- The fields of `http.Transport` that the dispatcher sets. -/
structure Transport where
  MaxIdleConnsPerHost : Int
  Dial : Dialer
deriving DecidableEq, Repr

/-- Struct `WsTunnel`; `httpTransport` is a pointer into `Process.transports`. -/
structure WsTunnel where
  httpTransport : Nat
  serverAddress : String
deriving DecidableEq, Repr

/-- A Go `map[string]β`, as an association list with at most one binding read per key. -/
abbrev GoMap (β : Type) := List (String × β)

/-- Map read `m[k]`: the first binding of `k`, `none` when there is none. -/
def GoMap.get {β : Type} : GoMap β → String → Option β
  | [], _ => none
  | (k', v) :: rest, k => if k' = k then some v else GoMap.get rest k

/-- Map write `m[k] = v`: replaces the binding of `k`, or adds one. -/
def GoMap.set {β : Type} : GoMap β → String → β → GoMap β
  | [], k, v => [(k, v)]
  | (k', v') :: rest, k, v =>
    if k' = k then (k, v) :: rest else (k', v') :: GoMap.set rest k v

/-- Struct `WsTunnelDispatcher`: the store `map[string]map[string]*WsTunnel`. The mutex field
has no state of its own between calls that run one after the other. -/
structure WsTunnelDispatcher where
  wsTunnelStore : GoMap (GoMap WsTunnel)
deriving DecidableEq, Repr

/-- Constructor `NewWsTunnelDispatcher()`: a dispatcher with an empty, non-nil store. -/
def NewWsTunnelDispatcher : WsTunnelDispatcher :=
  { wsTunnelStore := [] }

/-- Read `w.wsTunnelStore[clusterId][clientKey]`; a missing inner map reads as nil. -/
def WsTunnelDispatcher.entry (d : WsTunnelDispatcher) (clusterId clientKey : String) :
    Option WsTunnel :=
  match d.wsTunnelStore.get clusterId with
  | none => none
  | some inner => inner.get clientKey

/-- Observable calls made by the dispatcher on its collaborators. -/
inductive Event where
  | HasSession (clientKey : String)
  | Dialer (clientKey : String) (timeout : Nat)
  | CloseIdleConnections (tp : Nat)
deriving DecidableEq, Repr

/-- Mutable process state: the dispatcher objects by address, the heap of transports, and the
trace of collaborator calls (oldest first). -/
structure Process where
  dispatchers : Nat → WsTunnelDispatcher
  transports : List Transport
  trace : List Event

/-- Address of the package variable `DefaultWsTunnelDispatcher`. -/
def DefaultWsTunnelDispatcher : Nat := 0

/-- The process right after package initialisation: every dispatcher is as
`NewWsTunnelDispatcher()` built it, no transport exists, nothing was called. -/
def Process.init : Process :=
  { dispatchers := fun _ => NewWsTunnelDispatcher, transports := [], trace := [] }

/-- Appends one event to the trace. -/
def Process.log (s : Process) (e : Event) : Process :=
  { s with trace := s.trace ++ [e] }

/-- Stores dispatcher `d` at address `w`. -/
def Process.setDispatcher (s : Process) (w : Nat) (d : WsTunnelDispatcher) : Process :=
  { s with dispatchers := fun x => if x = w then d else s.dispatchers x }

/-- The collaborators as one call sees them: the credential store, the index pairs that
`rand.Shuffle(n, swap)` hands to its callback, and the tunnel server. -/
structure World where
  GetWsCredentialsByClusterId : String → List Credential
  Shuffle : Nat → List (Nat × Nat)
  HasSession : String → Bool
  Dialer : String → Nat → Dialer

/-- Constant `time.Second`, in nanoseconds. -/
def Second : Nat := 1000000000

/-- Result triple of both lookups: `(serverAddress, handle, found)`. -/
abbrev Found := String × Option Nat × Bool

/-! ## Operations -/

/-- The swap callback `credentials[i], credentials[j] = credentials[j], credentials[i]`
(`rand.Shuffle` only passes indices below `len(credentials)`). -/
def swapCallback (credentials : List Credential) (i j : Nat) : List Credential :=
  match credentials[i]?, credentials[j]? with
  | some ci, some cj => (credentials.set i cj).set j ci
  | _, _ => credentials

/-- Call `rand.Shuffle(len(credentials), swap)`: runs the callback on each pair in turn. -/
def randShuffle (env : World) (credentials : List Credential) : List Credential :=
  (env.Shuffle credentials.length).foldl (fun cs p => swapCallback cs p.1 p.2) credentials

/-- Method `serverAddressChanged`. -/
def serverAddressChanged (oldAddress newAddress : String) : Bool :=
  oldAddress != newAddress

/-- Lines 69-85 of `LookupWsTransport`: build a transport, fetch the dialer, close the idle
connections of the old transport if there was one, store the new entry, return it. -/
def rebuild (env : World) (w : Nat) (clusterId clientKey serverAddress : String)
    (wsTunnel : Option WsTunnel) (s : Process) : Found × Process :=
  let tp := s.transports.length
  let s := { s with
    transports := s.transports ++ [({ MaxIdleConnsPerHost := 10, Dial := none } : Transport)] }
  let s := s.log (.Dialer clientKey (15 * Second))
  let cd := env.Dialer clientKey (15 * Second)
  let s := { s with
    transports := List.modify (fun (t : Transport) => { t with Dial := cd }) tp s.transports }
  let s := match wsTunnel with
    | some old => s.log (.CloseIdleConnections old.httpTransport)
    | none => s
  let store := (s.dispatchers w).wsTunnelStore
  let store := match store.get clusterId with
    | none => store.set clusterId []
    | some _ => store
  let inner := (store.get clusterId).getD []
  let store := store.set clusterId (inner.set clientKey
    { httpTransport := tp, serverAddress := serverAddress })
  ((serverAddress, some tp, true), s.setDispatcher w { wsTunnelStore := store })

/-- Lines 63-85 of `LookupWsTransport`, run once `HasSession(clientKey)` answered true: read
the cache entry, return its transport when the address did not change, rebuild otherwise.
The lock is taken on entry and released on each exit, so a call running alone never blocks. -/
def lockedSection (env : World) (w : Nat) (clusterId clientKey serverAddress : String)
    (s : Process) : Found × Process :=
  let wsTunnel := (s.dispatchers w).entry clusterId clientKey
  match wsTunnel with
  | some t =>
    if !serverAddressChanged t.serverAddress serverAddress then
      ((serverAddress, some t.httpTransport, true), s)
    else rebuild env w clusterId clientKey serverAddress wsTunnel s
  | none => rebuild env w clusterId clientKey serverAddress wsTunnel s

/-- The `for _, credential := range credentials` loop of `LookupWsTransport` (lines 58-88). -/
def transportLoop (env : World) (w : Nat) (clusterId : String) :
    List Credential → Process → Found × Process
  | [], s => (("", none, false), s)
  | credential :: rest, s =>
    let clientKey := credential.ServerKey
    let serverAddress := credential.ServerAddress
    let s := s.log (.HasSession clientKey)
    if env.HasSession clientKey then lockedSection env w clusterId clientKey serverAddress s
    else transportLoop env w clusterId rest s

/-- Method `(w *WsTunnelDispatcher) LookupWsTransport(clusterId)`. -/
def LookupWsTransport (env : World) (w : Nat) (clusterId : String) (s : Process) :
    Found × Process :=
  let credentials := env.GetWsCredentialsByClusterId clusterId
  if credentials.length = 0 then (("", none, false), s)
  else transportLoop env w clusterId (randShuffle env credentials) s

/-- The `for _, credential := range credentials` loop of `LookupWsDialer` (lines 107-115). -/
def dialerLoop (env : World) : List Credential → Process → (String × Dialer × Bool) × Process
  | [], s => (("", none, false), s)
  | credential :: rest, s =>
    let clientKey := credential.ServerKey
    let serverAddress := credential.ServerAddress
    let s := s.log (.HasSession clientKey)
    if env.HasSession clientKey then
      let s := s.log (.Dialer clientKey (15 * Second))
      let clusterDialer := env.Dialer clientKey (15 * Second)
      ((serverAddress, clusterDialer, true), s)
    else dialerLoop env rest s

/-- Function `LookupWsDialer(clusterId)`. -/
def LookupWsDialer (env : World) (clusterId : String) (s : Process) :
    (String × Dialer × Bool) × Process :=
  let credentials := env.GetWsCredentialsByClusterId clusterId
  if credentials.length = 0 then (("", none, false), s)
  else dialerLoop env (randShuffle env credentials) s

/-- The `HasSession` calls a pass over `l` makes, in order. -/
def queries (l : List Credential) : List Event :=
  l.map (fun c => Event.HasSession c.ServerKey)

/-- Appends a run of events to the trace. -/
def Process.logAll (s : Process) (es : List Event) : Process :=
  { s with trace := s.trace ++ es }

/-- Concrete world: cluster "c1" has three credentials; the shuffle issues two swaps; the
sessions of "k2" and "k3" are live. -/
def worldUp : World :=
  { GetWsCredentialsByClusterId := fun c =>
      if c = "c1" then [⟨"k1", "a1"⟩, ⟨"k2", "a2"⟩, ⟨"k3", "a3"⟩] else []
    Shuffle := fun _ => [(2, 0), (1, 1)]
    HasSession := fun k => k = "k2" || k = "k3"
    Dialer := fun k _ => some k.length }

/-- Concrete world: as `worldUp`, with no live session at all. -/
def worldDown : World :=
  { worldUp with HasSession := fun _ => false }

/-- Concrete world: as `worldUp`, with only the session of "k2" live. -/
def worldOne : World :=
  { worldUp with HasSession := fun k => k = "k2" }

/-- Heap well-formedness of one dispatcher: every transport pointer it stores is below `n`
(with `n` the size of the transport heap: the pointer refers to an allocated transport). -/
def WsTunnelDispatcher.handlesBelow (d : WsTunnelDispatcher) (n : Nat) : Prop :=
  ∀ cid key t, d.entry cid key = some t → t.httpTransport < n

/-- Concrete world: the store re-registered "k2" of cluster "c1" at address "b2". -/
def worldMoved : World :=
  { worldOne with
    GetWsCredentialsByClusterId := fun c =>
      if c = "c1" then [⟨"k1", "a1"⟩, ⟨"k2", "b2"⟩, ⟨"k3", "a3"⟩] else [] }

/-- Concrete world: as `worldOne`, with a tunnel server that hands out the nil dialer. -/
def worldNoDial : World :=
  { worldOne with Dialer := fun _ _ => none }

/-- One `LookupWsTransport` call of a run: the world it sees and its argument. -/
structure Call where
  env : World
  clusterId : String

/-- The process after the calls of a run, made one after the other on dispatcher `w`. -/
def runCalls (w : Nat) : List Call → Process → Process
  | [], s => s
  | c :: cs, s => runCalls w cs (LookupWsTransport c.env w c.clusterId s).2

/-- The credential a call selects: the first of the shuffled sequence whose session is live. -/
def selected (env : World) (clusterId : String) : Option Credential :=
  (randShuffle env (env.GetWsCredentialsByClusterId clusterId)).find?
    (fun c => env.HasSession c.ServerKey)

/-- What one call resolved for the pair `(cid, key)`: the transport pointer and the address it
returned, when it was a call for `cid` that succeeded by selecting `key`; `none` otherwise. -/
def resolvedBy (c : Call) (w : Nat) (s : Process) (cid key : String) : Option WsTunnel :=
  match (LookupWsTransport c.env w c.clusterId s).1, selected c.env c.clusterId with
  | (addr, some h, true), some cr =>
    if c.clusterId = cid ∧ cr.ServerKey = key then
      some { httpTransport := h, serverAddress := addr }
    else none
  | _, _ => none

/-- What the most recent call of a run that resolved `(cid, key)` returned; `none` when no call
of the run resolved that pair. -/
def lastResolved (w : Nat) (cid key : String) : List Call → Process → Option WsTunnel
  | [], _ => none
  | c :: cs, s =>
    match lastResolved w cid key cs (LookupWsTransport c.env w c.clusterId s).2 with
    | some e => some e
    | none => resolvedBy c w s cid key

end Mesos

/-!
# Nested map lookup (cluster-resources, pkg/utils, exercised by map_test.go)
-/

namespace Utils

/-- The values of type `interface{}` that occur in the nested maps of the tests: nil, ints,
strings, `map[string]interface{}` and `[]map[string]interface{}`. -/
inductive Value where
  | nil
  | int (n : Int)
  | str (s : String)
  | map (m : List (String × Value))
  | mapSlice (l : List (List (String × Value)))

/-- Map read `obj[key]` with its `exists` flag: `none` when the key is absent. -/
def index : List (String × Value) → String → Option Value
  | [], _ => none
  | (k, v) :: rest, key => if k = key then some v else index rest key

/-- The failures `GetItems` reports: an empty key path, a key that is absent at its level, a
value under a non-final key that is not a `map[string]interface{}`. -/
inductive GetItemsError where
  | emptyItems
  | keyNotExist (key : String)
  | notMap (key : String)
deriving DecidableEq, Repr

/-- Modelled from the spec: `utils.GetItems(obj, items)` itself is not among the sources, only
`map_test.go` that calls it is. It walks `obj` along the key path `items` and returns
`(value, nil)` for the value under the last key, and `(nil, error)` when `items` is empty, when
a key is absent at its level, or when the value under a non-final key is not a
`map[string]interface{}`. -/
def GetItems : List (String × Value) → List String → Value × Option GetItemsError
  | _, [] => (.nil, some .emptyItems)
  | obj, key :: rest =>
    match index obj key with
    | none => (.nil, some (.keyNotExist key))
    | some ret =>
      match rest with
      | [] => (ret, none)
      | _ :: _ =>
        match ret with
        | .map subMap => GetItems subMap rest
        | _ => (.nil, some (.notMap key))

/-- The reference nested lookup, success side: `Reaches m p v` when every key of `p` but the
last leads to a `map[string]interface{}` and `v` is stored under the last key. -/
inductive Reaches : List (String × Value) → List String → Value → Prop where
  | last (m : List (String × Value)) (k : String) (v : Value) :
      index m k = some v → Reaches m [k] v
  | step (m sub : List (String × Value)) (k k₂ : String) (ks : List String) (v : Value) :
      index m k = some (.map sub) → Reaches sub (k₂ :: ks) v → Reaches m (k :: k₂ :: ks) v

/-- The reference nested lookup, failure side: the path is empty, or a key of the path is
absent at its level, or the value under a non-final key is not a `map[string]interface{}`. -/
inductive Fails : List (String × Value) → List String → Prop where
  | empty (m : List (String × Value)) : Fails m []
  | absent (m : List (String × Value)) (k : String) (ks : List String) :
      index m k = none → Fails m (k :: ks)
  | notMap (m : List (String × Value)) (k k₂ : String) (ks : List String) (v : Value) :
      index m k = some v → (∀ sub, v ≠ .map sub) → Fails m (k :: k₂ :: ks)
  | deeper (m sub : List (String × Value)) (k k₂ : String) (ks : List String) :
      index m k = some (.map sub) → Fails sub (k₂ :: ks) → Fails m (k :: k₂ :: ks)

/-- The map `deploySpec` of `map_test.go`. -/
def deploySpec : List (String × Value) :=
  [ ("replicas", .int 3),
    ("revisionHistoryLimit", .int 10),
    ("selector", .map [("matchLabels", .map [("app", .str "nginx")])]),
    ("strategy", .map
      [ ("rollingUpdate", .map [("maxSurge", .str "25%"), ("maxUnavailable", .str "25%")]),
        ("type", .str "RollingUpdate") ]),
    ("template", .map
      [ ("metadata", .map
          [("creationTimestamp", .nil), ("labels", .map [("app", .str "nginx")])]),
        ("spec", .map
          [ ("containers", .mapSlice
              [[ ("image", .str "nginx:latest"),
                 ("imagePullPolicy", .str "IfNotPresent"),
                 ("name", .str "nginx"),
                 ("ports", .map [("containerPort", .int 80), ("protocol", .str "TCP")]),
                 ("resources", .map []) ]]),
            ("dnsPolicy", .str "ClusterFirst"),
            ("restartPolicy", .str "Always"),
            ("schedulerName", .str "default-scheduler"),
            ("securityContext", .map []),
            ("terminationGracePeriodSeconds", .int 30) ]) ]) ]

end Utils

/-!
# Multi release cancel action (bscp-datamanager, actions/multi-release/cancel.go)
-/

namespace MultiRelease

/-- The values of `pbcommon.ErrCode` that `cancel.go` uses. -/
inductive ErrCode where
  | E_OK
  | E_DM_PARAMS_INVALID
  | E_DM_ERR_DBSHARDING
  | E_DM_DB_EXEC_ERR
  | E_DM_DB_UPDATE_ERR
deriving DecidableEq, Repr

/-- Message `pb.CancelMultiReleaseReq`. -/
structure CancelMultiReleaseReq where
  Seq : Nat
  Bid : String
  MultiReleaseid : String
  Operator : String
deriving DecidableEq, Repr

/-- Message `pb.CancelMultiReleaseResp`. -/
structure CancelMultiReleaseResp where
  Seq : Nat
  ErrCode : ErrCode
  ErrMsg : String
deriving DecidableEq, Repr

/-- The two length limits of package `database`, whose declarations are not among the
sources. -/
structure Limits where
  BSCPIDLENLIMIT : Int
  BSCPNAMELENLIMIT : Int

/-- Struct `CancelAction`, with the request and the response it points to (the viper and
sharding fields play no part in `Input`). -/
structure CancelAction where
  req : CancelMultiReleaseReq
  resp : CancelMultiReleaseResp
deriving DecidableEq, Repr

/-- Builtin `len` on a string: its number of bytes. -/
def len (s : String) : Int := s.utf8ByteSize

/-- Function `NewCancelAction`. -/
def NewCancelAction (req : CancelMultiReleaseReq) (resp : CancelMultiReleaseResp) :
    CancelAction :=
  let action : CancelAction := { req := req, resp := resp }
  let action := { action with resp := { action.resp with Seq := req.Seq } }
  let action := { action with resp := { action.resp with ErrCode := .E_OK } }
  let action := { action with resp := { action.resp with ErrMsg := "OK" } }
  action

/-- Method `Err`: writes code and message into the response and returns `errors.New(errMsg)`,
an error being modelled by its message. -/
def CancelAction.Err (act : CancelAction) (errCode : ErrCode) (errMsg : String) :
    String × CancelAction :=
  let act := { act with resp := { act.resp with ErrCode := errCode } }
  let act := { act with resp := { act.resp with ErrMsg := errMsg } }
  (errMsg, act)

/-- Method `verify`: `none` is the nil error. -/
def CancelAction.verify (lim : Limits) (act : CancelAction) : Option String :=
  let length := len act.req.Bid
  if length = 0 then some "invalid params, bid missing"
  else if length > lim.BSCPIDLENLIMIT then some "invalid params, bid too long"
  else
    let length := len act.req.MultiReleaseid
    if length = 0 then some "invalid params, multi releaseid missing"
    else if length > lim.BSCPIDLENLIMIT then some "invalid params, multi releaseid too long"
    else
      let length := len act.req.Operator
      if length = 0 then some "invalid params, operator missing"
      else if length > lim.BSCPNAMELENLIMIT then some "invalid params, operator too long"
      else none

/-- Method `Input`. -/
def CancelAction.Input (lim : Limits) (act : CancelAction) : Option String × CancelAction :=
  match act.verify lim with
  | some err =>
    let r := act.Err .E_DM_PARAMS_INVALID err
    (some r.1, r.2)
  | none => (none, act)

/-- The check `verify` makes on one field: it is empty or longer than its limit. -/
def tooShortOrLong (s : String) (limit : Int) : Prop :=
  s = "" ∨ len s > limit

/-- The request fails one of the checks of `verify`: `Bid` or `MultiReleaseid` is empty or
longer than `BSCPIDLENLIMIT`, or `Operator` is empty or longer than `BSCPNAMELENLIMIT`. -/
def invalidParams (lim : Limits) (req : CancelMultiReleaseReq) : Prop :=
  tooShortOrLong req.Bid lim.BSCPIDLENLIMIT ∨
    tooShortOrLong req.MultiReleaseid lim.BSCPIDLENLIMIT ∨
    tooShortOrLong req.Operator lim.BSCPNAMELENLIMIT

/-- Concrete limits for the examples. -/
def limits : Limits := { BSCPIDLENLIMIT := 64, BSCPNAMELENLIMIT := 32 }

end MultiRelease

namespace Mesos

/-! ## Go maps -/

theorem GoMap.get_set_same {β : Type} (m : GoMap β) (k : String) (v : β) :
    (m.set k v).get k = some v := by
  induction m with
  | nil => simp [GoMap.set, GoMap.get]
  | cons p rest ih =>
    obtain ⟨k', v'⟩ := p
    by_cases h : k' = k
    · simp [GoMap.set, GoMap.get, h]
    · simp [GoMap.set, GoMap.get, h, ih]

theorem GoMap.get_set_ne {β : Type} (m : GoMap β) (k k₂ : String) (v : β) (hne : k₂ ≠ k) :
    (m.set k v).get k₂ = m.get k₂ := by
  induction m with
  | nil => simp [GoMap.set, GoMap.get, Ne.symm hne]
  | cons p rest ih =>
    obtain ⟨k', v'⟩ := p
    by_cases h : k' = k
    · subst h
      simp [GoMap.set, GoMap.get, Ne.symm hne]
    · by_cases h2 : k' = k₂
      · subst h2
        simp [GoMap.set, GoMap.get, h]
      · simp [GoMap.set, GoMap.get, h, h2, ih]

/-! ## The shuffle only reorders -/

theorem set_cons_perm (x c : Credential) :
    ∀ (l : List Credential) (j : Nat), l[j]? = some c → (c :: l.set j x).Perm (x :: l)
  | [], j, h => by simp at h
  | y :: l, 0, h => by
    simp at h
    subst h
    simpa using List.Perm.swap x y l
  | y :: l, j + 1, h => by
    simp at h
    have ih := set_cons_perm x c l j h
    simp only [List.set_cons_succ]
    exact ((List.Perm.swap y c _).trans (ih.cons y)).trans (List.Perm.swap x y l)

theorem swapCallback_perm :
    ∀ (l : List Credential) (i j : Nat), (swapCallback l i j).Perm l
  | [], i, j => by simp [swapCallback]
  | x :: l, 0, 0 => by simp [swapCallback]
  | x :: l, 0, j + 1 => by
    unfold swapCallback
    cases h : l[j]? with
    | none => simp [h]
    | some cj => simpa [h] using set_cons_perm x cj l j h
  | x :: l, i + 1, 0 => by
    unfold swapCallback
    cases h : l[i]? with
    | none => simp [h]
    | some ci => simpa [h] using set_cons_perm x ci l i h
  | x :: l, i + 1, j + 1 => by
    have ih := swapCallback_perm l i j
    unfold swapCallback at ih ⊢
    cases hi : l[i]? with
    | none => simp [hi]
    | some ci =>
      cases hj : l[j]? with
      | none => simp [hi, hj]
      | some cj =>
        simp only [hi, hj] at ih
        simpa [hi, hj] using ih

theorem foldl_swapCallback_perm (swaps : List (Nat × Nat)) :
    ∀ l : List Credential, (swaps.foldl (fun cs p => swapCallback cs p.1 p.2) l).Perm l := by
  induction swaps with
  | nil => intro l; simp
  | cons p rest ih =>
    intro l
    simpa using (ih (swapCallback l p.1 p.2)).trans (swapCallback_perm l p.1 p.2)

theorem randShuffle_perm (env : World) (l : List Credential) : (randShuffle env l).Perm l :=
  foldl_swapCallback_perm _ l

/-- Every sequence with an element satisfying `p` splits at the first such element. -/
theorem exists_first_split {α : Type} (p : α → Bool) :
    ∀ l : List α, (∃ c ∈ l, p c = true) →
      ∃ pre c post, l = pre ++ c :: post ∧ (∀ x ∈ pre, p x = false) ∧ p c = true
  | [], h => by simp at h
  | a :: l, h => by
    by_cases ha : p a = true
    · exact ⟨[], a, l, by simp, by simp, ha⟩
    · have h2 : ∃ c ∈ l, p c = true := by
        obtain ⟨c, hc, hpc⟩ := h
        rcases List.mem_cons.1 hc with rfl | hc
        · exact absurd hpc ha
        · exact ⟨c, hc, hpc⟩
      obtain ⟨pre, c, post, hl, hpre, hc⟩ := exists_first_split p l h2
      refine ⟨a :: pre, c, post, by simp [hl], ?_, hc⟩
      intro x hx
      rcases List.mem_cons.1 hx with rfl | hx
      · simpa using ha
      · exact hpre x hx

/-! ## The rebuild path -/

theorem modify_length_append (f : Transport → Transport) (a : Transport) :
    ∀ l : List Transport, List.modify f l.length (l ++ [a]) = l ++ [f a]
  | [] => by simp [List.modify]
  | x :: l => by simpa [List.modify] using modify_length_append f a l

theorem rebuild_fst (env : World) (w : Nat) (c k a : String) (o : Option WsTunnel)
    (s : Process) : (rebuild env w c k a o s).1 = (a, some s.transports.length, true) := rfl

theorem rebuild_transports (env : World) (w : Nat) (c k a : String) (o : Option WsTunnel)
    (s : Process) :
    (rebuild env w c k a o s).2.transports =
      s.transports ++ [{ MaxIdleConnsPerHost := 10, Dial := env.Dialer k (15 * Second) }] := by
  cases o <;> simp [rebuild, Process.log, Process.setDispatcher, modify_length_append]

theorem rebuild_trace (env : World) (w : Nat) (c k a : String) (o : Option WsTunnel)
    (s : Process) :
    (rebuild env w c k a o s).2.trace =
      s.trace ++ Event.Dialer k (15 * Second) ::
        (match o with
          | some old => [Event.CloseIdleConnections old.httpTransport]
          | none => []) := by
  cases o <;> simp [rebuild, Process.log, Process.setDispatcher]

theorem rebuild_dispatchers_ne (env : World) (w w₂ : Nat) (c k a : String)
    (o : Option WsTunnel) (s : Process) (hne : w₂ ≠ w) :
    (rebuild env w c k a o s).2.dispatchers w₂ = s.dispatchers w₂ := by
  cases o <;> simp [rebuild, Process.log, Process.setDispatcher, hne]

theorem rebuild_entry_same (env : World) (w : Nat) (c k a : String) (o : Option WsTunnel)
    (s : Process) :
    ((rebuild env w c k a o s).2.dispatchers w).entry c k =
      some { httpTransport := s.transports.length, serverAddress := a } := by
  cases o <;>
    simp [rebuild, Process.log, Process.setDispatcher, WsTunnelDispatcher.entry,
      GoMap.get_set_same]

theorem rebuild_entry_ne (env : World) (w : Nat) (c k a c₂ k₂ : String) (o : Option WsTunnel)
    (s : Process) (hne : ¬ (c₂ = c ∧ k₂ = k)) :
    ((rebuild env w c k a o s).2.dispatchers w).entry c₂ k₂ =
      (s.dispatchers w).entry c₂ k₂ := by
  have key : ∀ s₁ : Process, s₁.dispatchers = s.dispatchers →
      (WsTunnelDispatcher.mk
        (GoMap.set
          (match (s₁.dispatchers w).wsTunnelStore.get c with
            | none => (s₁.dispatchers w).wsTunnelStore.set c []
            | some _ => (s₁.dispatchers w).wsTunnelStore)
          c
          (GoMap.set
            ((GoMap.get
              (match (s₁.dispatchers w).wsTunnelStore.get c with
                | none => (s₁.dispatchers w).wsTunnelStore.set c []
                | some _ => (s₁.dispatchers w).wsTunnelStore) c).getD [])
            k { httpTransport := s.transports.length, serverAddress := a }))).entry c₂ k₂ =
        (s.dispatchers w).entry c₂ k₂ := by
    intro s₁ hs
    rw [hs]
    by_cases hc : c₂ = c
    · subst hc
      have hk : k₂ ≠ k := fun h => hne ⟨rfl, h⟩
      cases hget : (s.dispatchers w).wsTunnelStore.get c₂ with
      | none =>
        simp [WsTunnelDispatcher.entry, GoMap.get_set_same, GoMap.get_set_ne, hget, hk,
          Ne.symm hk, GoMap.get, GoMap.set]
      | some inner =>
        simp [WsTunnelDispatcher.entry, GoMap.get_set_same, GoMap.get_set_ne, hget, hk]
    · cases hget : (s.dispatchers w).wsTunnelStore.get c with
      | none => simp [WsTunnelDispatcher.entry, GoMap.get_set_ne, hc]
      | some inner => simp [WsTunnelDispatcher.entry, GoMap.get_set_ne, hc]
  cases o with
  | none =>
    simpa [rebuild, Process.log, Process.setDispatcher] using key s rfl
  | some old =>
    simpa [rebuild, Process.log, Process.setDispatcher] using key s rfl

/-! ## The selection loop -/

theorem logAll_nil (s : Process) : s.logAll [] = s := by
  cases s; simp [Process.logAll]

theorem log_logAll (s : Process) (e : Event) (es : List Event) :
    (s.log e).logAll es = s.logAll (e :: es) := by
  simp [Process.logAll, Process.log]

theorem transportLoop_none (env : World) (w : Nat) (cid : String) :
    ∀ (l : List Credential) (s : Process), (∀ c ∈ l, env.HasSession c.ServerKey = false) →
      transportLoop env w cid l s = (("", none, false), s.logAll (queries l))
  | [], s, _ => by simp [transportLoop, queries, logAll_nil]
  | c :: l, s, h => by
    have hc : env.HasSession c.ServerKey = false := h c (List.mem_cons_self _ _)
    have ih := transportLoop_none env w cid l (s.log (.HasSession c.ServerKey))
      (fun x hx => h x (List.mem_cons_of_mem _ hx))
    simp [transportLoop, hc, ih, log_logAll, queries]

theorem transportLoop_split (env : World) (w : Nat) (cid : String) (c : Credential)
    (post : List Credential) (hc : env.HasSession c.ServerKey = true) :
    ∀ (pre : List Credential) (s : Process), (∀ x ∈ pre, env.HasSession x.ServerKey = false) →
      transportLoop env w cid (pre ++ c :: post) s =
        lockedSection env w cid c.ServerKey c.ServerAddress (s.logAll (queries (pre ++ [c])))
  | [], s, _ => by
    simp [transportLoop, hc, queries, Process.log, Process.logAll]
  | x :: pre, s, h => by
    have hx : env.HasSession x.ServerKey = false := h x (List.mem_cons_self _ _)
    have ih := transportLoop_split env w cid c post hc pre (s.log (.HasSession x.ServerKey))
      (fun y hy => h y (List.mem_cons_of_mem _ hy))
    rw [List.cons_append, transportLoop]
    simp only [hx, Bool.false_eq_true, if_false]
    rw [ih, log_logAll]
    simp [queries]

theorem dialerLoop_none (env : World) :
    ∀ (l : List Credential) (s : Process), (∀ c ∈ l, env.HasSession c.ServerKey = false) →
      dialerLoop env l s = (("", none, false), s.logAll (queries l))
  | [], s, _ => by simp [dialerLoop, queries, logAll_nil]
  | c :: l, s, h => by
    have hc : env.HasSession c.ServerKey = false := h c (List.mem_cons_self _ _)
    have ih := dialerLoop_none env l (s.log (.HasSession c.ServerKey))
      (fun x hx => h x (List.mem_cons_of_mem _ hx))
    simp [dialerLoop, hc, ih, log_logAll, queries]

theorem dialerLoop_split (env : World) (c : Credential)
    (post : List Credential) (hc : env.HasSession c.ServerKey = true) :
    ∀ (pre : List Credential) (s : Process), (∀ x ∈ pre, env.HasSession x.ServerKey = false) →
      dialerLoop env (pre ++ c :: post) s =
        ((c.ServerAddress, env.Dialer c.ServerKey (15 * Second), true),
          s.logAll (queries (pre ++ [c]) ++ [Event.Dialer c.ServerKey (15 * Second)]))
  | [], s, _ => by
    simp [dialerLoop, hc, queries, Process.log, Process.logAll]
  | x :: pre, s, h => by
    have hx : env.HasSession x.ServerKey = false := h x (List.mem_cons_self _ _)
    have ih := dialerLoop_split env c post hc pre (s.log (.HasSession x.ServerKey))
      (fun y hy => h y (List.mem_cons_of_mem _ hy))
    rw [List.cons_append, dialerLoop]
    simp only [hx, Bool.false_eq_true, if_false]
    rw [ih, log_logAll]
    simp [queries]

theorem lockedSection_addr (env : World) (w : Nat) (cid k a : String) (s : Process) :
    (lockedSection env w cid k a s).1.1 = a ∧ (lockedSection env w cid k a s).1.2.2 = true := by
  unfold lockedSection
  cases (s.dispatchers w).entry cid k with
  | none => simp [rebuild_fst]
  | some t =>
    by_cases h : serverAddressChanged t.serverAddress a = true
    · simp [h, rebuild_fst]
    · simp [h]

/-- A live credential of the store is still there after the shuffle, and the shuffled sequence
splits at its first live credential. -/
theorem shuffled_split (env : World) (cid : String) (c : Credential)
    (hmem : c ∈ env.GetWsCredentialsByClusterId cid) (hlive : env.HasSession c.ServerKey = true) :
    ∃ pre c₁ post, randShuffle env (env.GetWsCredentialsByClusterId cid) = pre ++ c₁ :: post ∧
      (∀ x ∈ pre, env.HasSession x.ServerKey = false) ∧ env.HasSession c₁.ServerKey = true ∧
      c₁ ∈ env.GetWsCredentialsByClusterId cid := by
  have hperm := randShuffle_perm env (env.GetWsCredentialsByClusterId cid)
  obtain ⟨pre, c₁, post, hl, hpre, hc₁⟩ :=
    exists_first_split (fun x => env.HasSession x.ServerKey) _
      ⟨c, hperm.mem_iff.2 hmem, hlive⟩
  refine ⟨pre, c₁, post, hl, hpre, hc₁, hperm.mem_iff.1 ?_⟩
  rw [hl]
  simp

theorem LookupWsTransport_nonempty (env : World) (w : Nat) (cid : String) (s : Process)
    (c : Credential) (hmem : c ∈ env.GetWsCredentialsByClusterId cid) :
    LookupWsTransport env w cid s =
      transportLoop env w cid (randShuffle env (env.GetWsCredentialsByClusterId cid)) s := by
  have : (env.GetWsCredentialsByClusterId cid).length ≠ 0 := by
    intro h
    rw [List.length_eq_zero] at h
    rw [h] at hmem
    simp at hmem
  simp [LookupWsTransport, this]

theorem LookupWsDialer_nonempty (env : World) (cid : String) (s : Process)
    (c : Credential) (hmem : c ∈ env.GetWsCredentialsByClusterId cid) :
    LookupWsDialer env cid s =
      dialerLoop env (randShuffle env (env.GetWsCredentialsByClusterId cid)) s := by
  have : (env.GetWsCredentialsByClusterId cid).length ≠ 0 := by
    intro h
    rw [List.length_eq_zero] at h
    rw [h] at hmem
    simp at hmem
  simp [LookupWsDialer, this]

/-! ## The locked section -/

theorem logAll_dispatchers (s : Process) (es : List Event) :
    (s.logAll es).dispatchers = s.dispatchers := rfl

theorem logAll_transports (s : Process) (es : List Event) :
    (s.logAll es).transports = s.transports := rfl

theorem logAll_trace (s : Process) (es : List Event) :
    (s.logAll es).trace = s.trace ++ es := rfl

theorem lockedSection_reuse (env : World) (w : Nat) (cid k a : String) (s : Process) (h : Nat)
    (he : (s.dispatchers w).entry cid k = some { httpTransport := h, serverAddress := a }) :
    lockedSection env w cid k a s = ((a, some h, true), s) := by
  simp [lockedSection, he, serverAddressChanged]

theorem lockedSection_changed (env : World) (w : Nat) (cid k a : String) (s : Process)
    (t : WsTunnel) (he : (s.dispatchers w).entry cid k = some t) (hne : t.serverAddress ≠ a) :
    lockedSection env w cid k a s = rebuild env w cid k a (some t) s := by
  simp [lockedSection, he, serverAddressChanged, hne]

theorem lockedSection_fresh (env : World) (w : Nat) (cid k a : String) (s : Process)
    (he : (s.dispatchers w).entry cid k = none) :
    lockedSection env w cid k a s = rebuild env w cid k a none s := by
  simp [lockedSection, he]

/-- After the locked section the cache entry of the selected key holds exactly what the call
returns, and the returned pointer is allocated. -/
theorem lockedSection_entry (env : World) (w : Nat) (cid k a : String) (s : Process) :
    ∃ h, (lockedSection env w cid k a s).1 = (a, some h, true) ∧
      ((lockedSection env w cid k a s).2.dispatchers w).entry cid k =
        some { httpTransport := h, serverAddress := a } ∧
      ((s.dispatchers w).handlesBelow s.transports.length →
        h < (lockedSection env w cid k a s).2.transports.length) := by
  cases he : (s.dispatchers w).entry cid k with
  | none =>
    rw [lockedSection_fresh env w cid k a s he]
    exact ⟨s.transports.length, rfl, rebuild_entry_same _ _ _ _ _ _ _, fun _ => by
      simp [rebuild_transports]⟩
  | some t =>
    by_cases hne : t.serverAddress = a
    · obtain ⟨h, a₂⟩ := t
      simp only at hne
      subst hne
      rw [lockedSection_reuse env w cid k a₂ s h he]
      exact ⟨h, rfl, he, fun hb => hb cid k _ he⟩
    · rw [lockedSection_changed env w cid k a s t he hne]
      exact ⟨s.transports.length, rfl, rebuild_entry_same _ _ _ _ _ _ _, fun _ => by
        simp [rebuild_transports]⟩

/-- When `c` is the only credential of the cluster with a live session, the call runs the
locked section for `c` after a run of `HasSession` queries. -/
theorem lookup_only_live (env : World) (w : Nat) (cid : String) (s : Process) (c : Credential)
    (hmem : c ∈ env.GetWsCredentialsByClusterId cid)
    (hlive : env.HasSession c.ServerKey = true)
    (honly : ∀ x ∈ env.GetWsCredentialsByClusterId cid,
      env.HasSession x.ServerKey = true → x = c) :
    ∃ l, LookupWsTransport env w cid s =
      lockedSection env w cid c.ServerKey c.ServerAddress (s.logAll (queries l)) := by
  obtain ⟨pre, c₁, post, hl, hpre, hc₁, hmem₁⟩ := shuffled_split env cid c hmem hlive
  have hcc : c₁ = c := honly c₁ hmem₁ hc₁
  subst hcc
  exact ⟨pre ++ [c₁], by
    rw [LookupWsTransport_nonempty env w cid s c₁ hmem, hl,
      transportLoop_split env w cid c₁ post hc₁ pre s hpre]⟩

/-- The locked section appends no `HasSession` call to the trace. -/
theorem lockedSection_trace (env : World) (w : Nat) (cid k a : String) (s : Process) :
    ∃ tail, (lockedSection env w cid k a s).2.trace = s.trace ++ tail ∧
      ∀ e ∈ tail, ∀ key, e ≠ Event.HasSession key := by
  cases he : (s.dispatchers w).entry cid k with
  | none =>
    rw [lockedSection_fresh env w cid k a s he, rebuild_trace]
    exact ⟨_, rfl, by simp⟩
  | some t =>
    by_cases hne : t.serverAddress = a
    · obtain ⟨h, a₂⟩ := t
      simp only at hne
      subst hne
      rw [lockedSection_reuse env w cid k a₂ s h he]
      exact ⟨[], by simp, by simp⟩
    · rw [lockedSection_changed env w cid k a s t he hne, rebuild_trace]
      exact ⟨_, rfl, by simp⟩

/-- Both loops walk the same sequence and stop at the same credential. -/
theorem loops_agree (env : World) (w : Nat) (cid : String) :
    ∀ (l : List Credential) (s s₂ : Process),
      (transportLoop env w cid l s).1.1 = (dialerLoop env l s₂).1.1 ∧
        (transportLoop env w cid l s).1.2.2 = (dialerLoop env l s₂).1.2.2
  | [], s, s₂ => by simp [transportLoop, dialerLoop]
  | c :: l, s, s₂ => by
    by_cases hc : env.HasSession c.ServerKey = true
    · have := lockedSection_addr env w cid c.ServerKey c.ServerAddress
        (s.log (.HasSession c.ServerKey))
      simp [transportLoop, dialerLoop, hc, this]
    · have ih := loops_agree env w cid l (s.log (.HasSession c.ServerKey))
        (s₂.log (.HasSession c.ServerKey))
      simpa [transportLoop, dialerLoop, hc] using ih

/-- The dialer loop writes the trace only, and its result is a function of the world and the
sequence alone. -/
theorem dialerLoop_frame (env : World) :
    ∀ (l : List Credential) (s s₂ : Process),
      (dialerLoop env l s).2.dispatchers = s.dispatchers ∧
        (dialerLoop env l s).2.transports = s.transports ∧
        (dialerLoop env l s₂).1 = (dialerLoop env l s).1
  | [], s, s₂ => by simp [dialerLoop]
  | c :: l, s, s₂ => by
    by_cases hc : env.HasSession c.ServerKey = true
    · simp [dialerLoop, hc, Process.log]
    · have ih := dialerLoop_frame env l (s.log (.HasSession c.ServerKey))
        (s₂.log (.HasSession c.ServerKey))
      simpa [dialerLoop, hc, Process.log] using ih

/-- The locked section writes no cache entry but the one of the selected pair. -/
theorem lockedSection_entry_ne (env : World) (w : Nat) (cid k a cid₂ k₂ : String) (s : Process)
    (hne : ¬ (cid₂ = cid ∧ k₂ = k)) :
    ((lockedSection env w cid k a s).2.dispatchers w).entry cid₂ k₂ =
      (s.dispatchers w).entry cid₂ k₂ := by
  cases he : (s.dispatchers w).entry cid k with
  | none =>
    rw [lockedSection_fresh env w cid k a s he]
    exact rebuild_entry_ne env w cid k a cid₂ k₂ none s hne
  | some t =>
    by_cases hne₂ : t.serverAddress = a
    · obtain ⟨h, a₂⟩ := t
      simp only at hne₂
      subst hne₂
      rw [lockedSection_reuse env w cid k a₂ s h he]
    · rw [lockedSection_changed env w cid k a s t he hne₂]
      exact rebuild_entry_ne env w cid k a cid₂ k₂ (some t) s hne

theorem lookup_selected_none (env : World) (w : Nat) (cid : String) (s : Process)
    (h : selected env cid = none) :
    ∃ l, LookupWsTransport env w cid s = (("", none, false), s.logAll (queries l)) := by
  by_cases hlen : (env.GetWsCredentialsByClusterId cid).length = 0
  · exact ⟨[], by simp [LookupWsTransport, hlen, queries, logAll_nil]⟩
  · refine ⟨randShuffle env (env.GetWsCredentialsByClusterId cid), ?_⟩
    simp only [LookupWsTransport, hlen, if_false]
    apply transportLoop_none
    intro c hc
    have := (List.find?_eq_none.1 h) c hc
    simpa using this

theorem lookup_selected_some (env : World) (w : Nat) (cid : String) (s : Process)
    (cr : Credential) (h : selected env cid = some cr) :
    ∃ l, LookupWsTransport env w cid s =
      lockedSection env w cid cr.ServerKey cr.ServerAddress (s.logAll (queries l)) := by
  obtain ⟨hp, pre, post, hl, hpre⟩ := List.find?_eq_some.1 h
  have hmem : cr ∈ env.GetWsCredentialsByClusterId cid := by
    refine (randShuffle_perm env _).mem_iff.1 ?_
    rw [hl]
    simp
  refine ⟨pre ++ [cr], ?_⟩
  rw [LookupWsTransport_nonempty env w cid s cr hmem, hl]
  exact transportLoop_split env w cid cr post hp pre s (fun x hx => by simpa using hpre x hx)

/-- One call changes the entry of `(cid, key)` exactly when it resolves that pair, and then to
what it returns. -/
theorem lookup_entry (c : Call) (w : Nat) (s : Process) (cid key : String) :
    ((LookupWsTransport c.env w c.clusterId s).2.dispatchers w).entry cid key =
      match resolvedBy c w s cid key with
      | some e => some e
      | none => (s.dispatchers w).entry cid key := by
  cases hsel : selected c.env c.clusterId with
  | none =>
    obtain ⟨l, hl⟩ := lookup_selected_none c.env w c.clusterId s hsel
    simp [resolvedBy, hsel, hl, logAll_dispatchers]
  | some cr =>
    obtain ⟨l, hl⟩ := lookup_selected_some c.env w c.clusterId s cr hsel
    obtain ⟨h, hres, hentry, -⟩ :=
      lockedSection_entry c.env w c.clusterId cr.ServerKey cr.ServerAddress
        (s.logAll (queries l))
    by_cases hpair : c.clusterId = cid ∧ cr.ServerKey = key
    · obtain ⟨h₁, h₂⟩ := hpair
      subst h₁ h₂
      simp [resolvedBy, hsel, hl, hres, hentry]
    · have hpair₂ : ¬ (cid = c.clusterId ∧ key = cr.ServerKey) :=
        fun hh => hpair ⟨hh.1.symm, hh.2.symm⟩
      have := lockedSection_entry_ne c.env w c.clusterId cr.ServerKey cr.ServerAddress cid key
        (s.logAll (queries l)) hpair₂
      simp [resolvedBy, hsel, hl, hres, hpair, this, logAll_dispatchers]

/-- After a run, the entry of `(cid, key)` is what the most recent call resolving that pair
returned, and the entry from before the run when no call resolved it. -/
theorem runCalls_entry (w : Nat) (cid key : String) :
    ∀ (calls : List Call) (s : Process),
      ((runCalls w calls s).dispatchers w).entry cid key =
        match lastResolved w cid key calls s with
        | some e => some e
        | none => (s.dispatchers w).entry cid key
  | [], s => by simp [runCalls, lastResolved]
  | c :: cs, s => by
    have ih := runCalls_entry w cid key cs (LookupWsTransport c.env w c.clusterId s).2
    rw [runCalls, ih, lastResolved]
    cases lastResolved w cid key cs (LookupWsTransport c.env w c.clusterId s).2 with
    | some e => rfl
    | none => exact lookup_entry c w s cid key

theorem lockedSection_dispatchers_ne (env : World) (w w₂ : Nat) (cid k a : String)
    (s : Process) (hne : w₂ ≠ w) :
    (lockedSection env w cid k a s).2.dispatchers w₂ = s.dispatchers w₂ := by
  cases he : (s.dispatchers w).entry cid k with
  | none =>
    rw [lockedSection_fresh env w cid k a s he]
    exact rebuild_dispatchers_ne env w w₂ cid k a none s hne
  | some t =>
    by_cases hne₂ : t.serverAddress = a
    · obtain ⟨h, a₂⟩ := t
      simp only at hne₂
      subst hne₂
      rw [lockedSection_reuse env w cid k a₂ s h he]
    · rw [lockedSection_changed env w cid k a s t he hne₂]
      exact rebuild_dispatchers_ne env w w₂ cid k a (some t) s hne

/-- On the rebuild path (no entry, or an entry with another address) the locked section is
the rebuild. -/
theorem lockedSection_rebuild (env : World) (w : Nat) (cid k a : String) (s : Process)
    (hpath : ∀ t, (s.dispatchers w).entry cid k = some t → t.serverAddress ≠ a) :
    lockedSection env w cid k a s =
      rebuild env w cid k a ((s.dispatchers w).entry cid k) s := by
  cases he : (s.dispatchers w).entry cid k with
  | none => exact lockedSection_fresh env w cid k a s he
  | some t => exact lockedSection_changed env w cid k a s t he (hpath t he)

/-- The shuffle of an empty list is empty. -/
theorem randShuffle_nil (env : World) : randShuffle env [] = [] :=
  List.Perm.eq_nil (randShuffle_perm env [])

/-- A pass over a reordered sequence makes the same queries, reordered. -/
theorem queries_perm (l₁ l₂ : List Credential) (h : l₁.Perm l₂) :
    (queries l₁).Perm (queries l₂) :=
  h.map _

/-! ## Claims -/

/-- C1: when no credential of the cluster has a live session (in particular when the cluster
has no credential), `LookupWsTransport` and `LookupWsDialer` both return `("", nil, false)`;
both are total, so neither panics. -/
theorem lookup_without_live_session (env : World) (w : Nat) (cid : String) (s : Process)
    (h : ∀ c ∈ env.GetWsCredentialsByClusterId cid, env.HasSession c.ServerKey = false) :
    (LookupWsTransport env w cid s).1 = ("", none, false) ∧
      (LookupWsDialer env cid s).1 = ("", none, false) := by
  have hs : ∀ c ∈ randShuffle env (env.GetWsCredentialsByClusterId cid),
      env.HasSession c.ServerKey = false :=
    fun c hc => h c ((randShuffle_perm env _).mem_iff.1 hc)
  constructor
  · by_cases hlen : (env.GetWsCredentialsByClusterId cid).length = 0
    · simp [LookupWsTransport, hlen]
    · simp [LookupWsTransport, hlen, transportLoop_none env w cid _ s hs]
  · by_cases hlen : (env.GetWsCredentialsByClusterId cid).length = 0
    · simp [LookupWsDialer, hlen]
    · simp [LookupWsDialer, hlen, dialerLoop_none env _ s hs]

theorem lookup_without_live_session_witness :
    (∀ c ∈ worldDown.GetWsCredentialsByClusterId "c1", worldDown.HasSession c.ServerKey = false) ∧
      (LookupWsTransport worldDown 0 "c1" Process.init).1 = ("", none, false) ∧
      (LookupWsDialer worldDown "c1" Process.init).1 = ("", none, false) :=
  ⟨by decide, lookup_without_live_session worldDown 0 "c1" Process.init (by decide)⟩

/-- C2: when exactly one credential of the cluster, the one at position `k` of the stored list,
has a live session, `LookupWsTransport` returns found = true and that credential's
ServerAddress, whatever index pairs the shuffle issues. -/
theorem only_live_credential_found (env : World) (w : Nat) (cid : String) (s : Process)
    (k : Nat) (c : Credential)
    (hk : (env.GetWsCredentialsByClusterId cid)[k]? = some c)
    (hlive : env.HasSession c.ServerKey = true)
    (hothers : ∀ i c₂, i ≠ k → (env.GetWsCredentialsByClusterId cid)[i]? = some c₂ →
      env.HasSession c₂.ServerKey = false) :
    (LookupWsTransport env w cid s).1.1 = c.ServerAddress ∧
      (LookupWsTransport env w cid s).1.2.2 = true := by
  have hmem : c ∈ env.GetWsCredentialsByClusterId cid := List.getElem?_mem hk
  obtain ⟨pre, c₁, post, hl, hpre, hc₁, hmem₁⟩ := shuffled_split env cid c hmem hlive
  have hcc : c₁ = c := by
    obtain ⟨i, hi⟩ := List.getElem?_of_mem hmem₁
    by_cases hik : i = k
    · subst hik
      rw [hk] at hi
      exact (Option.some.inj hi).symm
    · have := hothers i c₁ hik hi
      rw [hc₁] at this
      exact absurd this (by simp)
  subst hcc
  rw [LookupWsTransport_nonempty env w cid s c₁ hmem, hl, transportLoop_split env w cid c₁ post hc₁ pre s hpre]
  exact lockedSection_addr env w cid _ _ _

theorem only_live_credential_found_witness :
    (worldOne.GetWsCredentialsByClusterId "c1")[1]? = some ⟨"k2", "a2"⟩ ∧
      (LookupWsTransport worldOne 0 "c1" Process.init).1.1 = "a2" ∧
      (LookupWsTransport worldOne 0 "c1" Process.init).1.2.2 = true :=
  ⟨by decide, only_live_credential_found worldOne 0 "c1" Process.init 1 ⟨"k2", "a2"⟩
    (by decide) (by decide) (by
      intro i c₂ hi h
      match i, hi, h with
      | 0, _, h => simp [worldOne, worldUp] at h; subst h; decide
      | 1, hi, _ => exact absurd rfl hi
      | 2, _, h => simp [worldOne, worldUp] at h; subst h; decide
      | n + 3, _, h => simp [worldOne, worldUp] at h)⟩

/-- C3: while one credential stays the only one of the cluster with a live session and keeps its
ServerAddress, two successive `LookupWsTransport` calls on the same dispatcher return the same
triple (same transport pointer); the second call only queries `HasSession` (no dialer is
requested, nothing is closed), allocates no transport and leaves every dispatcher as it was. -/
theorem successive_lookup_reuses (env₁ env₂ : World) (w : Nat) (cid : String) (s : Process)
    (c : Credential)
    (hmem₁ : c ∈ env₁.GetWsCredentialsByClusterId cid)
    (hlive₁ : env₁.HasSession c.ServerKey = true)
    (honly₁ : ∀ x ∈ env₁.GetWsCredentialsByClusterId cid,
      env₁.HasSession x.ServerKey = true → x = c)
    (hmem₂ : c ∈ env₂.GetWsCredentialsByClusterId cid)
    (hlive₂ : env₂.HasSession c.ServerKey = true)
    (honly₂ : ∀ x ∈ env₂.GetWsCredentialsByClusterId cid,
      env₂.HasSession x.ServerKey = true → x = c) :
    (LookupWsTransport env₂ w cid (LookupWsTransport env₁ w cid s).2).1 =
        (LookupWsTransport env₁ w cid s).1 ∧
      (∃ h, (LookupWsTransport env₁ w cid s).1 = (c.ServerAddress, some h, true)) ∧
      (∃ l, (LookupWsTransport env₂ w cid (LookupWsTransport env₁ w cid s).2).2.trace =
        (LookupWsTransport env₁ w cid s).2.trace ++ queries l) ∧
      (LookupWsTransport env₂ w cid (LookupWsTransport env₁ w cid s).2).2.transports =
        (LookupWsTransport env₁ w cid s).2.transports ∧
      (LookupWsTransport env₂ w cid (LookupWsTransport env₁ w cid s).2).2.dispatchers =
        (LookupWsTransport env₁ w cid s).2.dispatchers := by
  obtain ⟨l₁, e₁⟩ := lookup_only_live env₁ w cid s c hmem₁ hlive₁ honly₁
  obtain ⟨l₂, e₂⟩ :=
    lookup_only_live env₂ w cid (LookupWsTransport env₁ w cid s).2 c hmem₂ hlive₂ honly₂
  obtain ⟨h, hres, hentry, -⟩ :=
    lockedSection_entry env₁ w cid c.ServerKey c.ServerAddress (s.logAll (queries l₁))
  rw [← e₁] at hres hentry
  have hre := lockedSection_reuse env₂ w cid c.ServerKey c.ServerAddress
    ((LookupWsTransport env₁ w cid s).2.logAll (queries l₂)) h hentry
  rw [e₂, hre, hres]
  exact ⟨rfl, ⟨h, rfl⟩, ⟨l₂, rfl⟩, rfl, rfl⟩

theorem successive_lookup_reuses_witness :
    (LookupWsTransport worldOne 0 "c1" Process.init).1 = ("a2", some 0, true) ∧
      (LookupWsTransport worldOne 0 "c1" (LookupWsTransport worldOne 0 "c1" Process.init).2).1 =
        (LookupWsTransport worldOne 0 "c1" Process.init).1 :=
  ⟨by decide,
    (successive_lookup_reuses worldOne worldOne 0 "c1" Process.init ⟨"k2", "a2"⟩
      (by decide) (by decide) (by decide) (by decide) (by decide) (by decide)).1⟩

/-- C4: when the only live credential of the cluster keeps its ServerKey `k` and changes its
ServerAddress from `a` to `b ≠ a` between two successive `LookupWsTransport` calls (on a
dispatcher whose stored pointers are allocated), the second call returns a transport pointer
different from the first call's, its last two collaborator calls are `Dialer(k, 15s)` and
`CloseIdleConnections` on the first pointer, and the cache entry of `(cid, k)` afterwards holds
the new pointer with address `b`. -/
theorem address_change_rebuilds (env₁ env₂ : World) (w : Nat) (cid k a b : String)
    (s : Process) (hab : a ≠ b)
    (hwf : (s.dispatchers w).handlesBelow s.transports.length)
    (hmem₁ : ⟨k, a⟩ ∈ env₁.GetWsCredentialsByClusterId cid)
    (hlive₁ : env₁.HasSession k = true)
    (honly₁ : ∀ x ∈ env₁.GetWsCredentialsByClusterId cid,
      env₁.HasSession x.ServerKey = true → x = ⟨k, a⟩)
    (hmem₂ : ⟨k, b⟩ ∈ env₂.GetWsCredentialsByClusterId cid)
    (hlive₂ : env₂.HasSession k = true)
    (honly₂ : ∀ x ∈ env₂.GetWsCredentialsByClusterId cid,
      env₂.HasSession x.ServerKey = true → x = ⟨k, b⟩) :
    ∃ h₁ h₂ l,
      (LookupWsTransport env₁ w cid s).1 = (a, some h₁, true) ∧
      (LookupWsTransport env₂ w cid (LookupWsTransport env₁ w cid s).2).1 = (b, some h₂, true) ∧
      h₁ ≠ h₂ ∧
      (LookupWsTransport env₂ w cid (LookupWsTransport env₁ w cid s).2).2.trace =
        (LookupWsTransport env₁ w cid s).2.trace ++ queries l ++
          [Event.Dialer k (15 * Second), Event.CloseIdleConnections h₁] ∧
      ((LookupWsTransport env₂ w cid (LookupWsTransport env₁ w cid s).2).2.dispatchers w).entry
        cid k = some { httpTransport := h₂, serverAddress := b } := by
  obtain ⟨l₁, e₁⟩ := lookup_only_live env₁ w cid s ⟨k, a⟩ hmem₁ hlive₁ honly₁
  obtain ⟨l₂, e₂⟩ :=
    lookup_only_live env₂ w cid (LookupWsTransport env₁ w cid s).2 ⟨k, b⟩ hmem₂ hlive₂ honly₂
  obtain ⟨h₁, hres, hentry, hlt⟩ :=
    lockedSection_entry env₁ w cid k a (s.logAll (queries l₁))
  have hlt := hlt hwf
  simp only at e₁ e₂
  rw [← e₁] at hres hentry hlt
  have hch := lockedSection_changed env₂ w cid k b
    ((LookupWsTransport env₁ w cid s).2.logAll (queries l₂)) _ hentry hab
  refine ⟨h₁, (LookupWsTransport env₁ w cid s).2.transports.length, l₂, hres, ?_, ?_, ?_, ?_⟩
  · rw [e₂, hch, rebuild_fst]; rfl
  · exact Nat.ne_of_lt hlt
  · rw [e₂, hch, rebuild_trace]
    simp [logAll_trace]
  · rw [e₂, hch]
    exact rebuild_entry_same _ _ _ _ _ _ _

theorem address_change_rebuilds_witness :
    ∃ h₁ h₂ l,
      (LookupWsTransport worldOne 0 "c1" Process.init).1 = ("a2", some h₁, true) ∧
      (LookupWsTransport worldMoved 0 "c1"
        (LookupWsTransport worldOne 0 "c1" Process.init).2).1 = ("b2", some h₂, true) ∧
      h₁ ≠ h₂ ∧
      (LookupWsTransport worldMoved 0 "c1"
        (LookupWsTransport worldOne 0 "c1" Process.init).2).2.trace =
        (LookupWsTransport worldOne 0 "c1" Process.init).2.trace ++ queries l ++
          [Event.Dialer "k2" (15 * Second), Event.CloseIdleConnections h₁] ∧
      ((LookupWsTransport worldMoved 0 "c1"
        (LookupWsTransport worldOne 0 "c1" Process.init).2).2.dispatchers 0).entry
        "c1" "k2" = some { httpTransport := h₂, serverAddress := "b2" } :=
  address_change_rebuilds worldOne worldMoved 0 "c1" "k2" "a2" "b2" Process.init (by decide)
    (by intro cid key t h; simp [Process.init, NewWsTunnelDispatcher, WsTunnelDispatcher.entry,
      GoMap.get] at h)
    (by decide) (by decide) (by decide) (by decide) (by decide) (by decide)

/-- C5: when the shuffled sequence is `pre ++ c :: post` with `c` its first credential with a
live session, `LookupWsTransport` returns the ServerAddress of `c` with found = true, and its
`HasSession` queries are exactly those for `pre` and then `c`: what the call appends to the
trace after them holds no `HasSession` query, so no credential of `post` is queried. -/
theorem first_live_selected (env : World) (w : Nat) (cid : String) (s : Process)
    (pre post : List Credential) (c : Credential)
    (hseq : randShuffle env (env.GetWsCredentialsByClusterId cid) = pre ++ c :: post)
    (hpre : ∀ x ∈ pre, env.HasSession x.ServerKey = false)
    (hc : env.HasSession c.ServerKey = true) :
    (LookupWsTransport env w cid s).1.1 = c.ServerAddress ∧
      (LookupWsTransport env w cid s).1.2.2 = true ∧
      ∃ tail, (LookupWsTransport env w cid s).2.trace =
          s.trace ++ queries (pre ++ [c]) ++ tail ∧
        ∀ e ∈ tail, ∀ key, e ≠ Event.HasSession key := by
  have hmem : c ∈ env.GetWsCredentialsByClusterId cid := by
    refine (randShuffle_perm env _).mem_iff.1 ?_
    rw [hseq]
    simp
  rw [LookupWsTransport_nonempty env w cid s c hmem, hseq,
    transportLoop_split env w cid c post hc pre s hpre]
  obtain ⟨tail, htr, hno⟩ := lockedSection_trace env w cid c.ServerKey c.ServerAddress
    (s.logAll (queries (pre ++ [c])))
  have haddr := lockedSection_addr env w cid c.ServerKey c.ServerAddress
    (s.logAll (queries (pre ++ [c])))
  exact ⟨haddr.1, haddr.2, tail, by rw [htr, logAll_trace], hno⟩

theorem first_live_selected_witness :
    randShuffle worldUp (worldUp.GetWsCredentialsByClusterId "c1") =
        [] ++ ⟨"k3", "a3"⟩ :: [⟨"k2", "a2"⟩, ⟨"k1", "a1"⟩] ∧
      (LookupWsTransport worldUp 0 "c1" Process.init).1.1 = "a3" ∧
      (LookupWsTransport worldUp 0 "c1" Process.init).1.2.2 = true ∧
      ∃ tail, (LookupWsTransport worldUp 0 "c1" Process.init).2.trace =
          Process.init.trace ++ queries ([] ++ [⟨"k3", "a3"⟩]) ++ tail ∧
        ∀ e ∈ tail, ∀ key, e ≠ Event.HasSession key :=
  ⟨by decide, first_live_selected worldUp 0 "c1" Process.init [] [⟨"k2", "a2"⟩, ⟨"k1", "a1"⟩]
    ⟨"k3", "a3"⟩ (by decide) (by decide) (by decide)⟩

/-- C6: a call to `LookupWsDialer` leaves the store of every dispatcher
(`DefaultWsTunnelDispatcher` included) and the transport heap as they were, and returns the same
triple from any two process states: its result does not depend on the cache. -/
theorem dialer_lookup_leaves_cache (env : World) (cid : String) (s s₂ : Process) :
    (LookupWsDialer env cid s).2.dispatchers = s.dispatchers ∧
      ((LookupWsDialer env cid s).2.dispatchers DefaultWsTunnelDispatcher).wsTunnelStore =
        (s.dispatchers DefaultWsTunnelDispatcher).wsTunnelStore ∧
      (LookupWsDialer env cid s).2.transports = s.transports ∧
      (LookupWsDialer env cid s₂).1 = (LookupWsDialer env cid s).1 := by
  have h := dialerLoop_frame env (randShuffle env (env.GetWsCredentialsByClusterId cid)) s s₂
  by_cases hlen : (env.GetWsCredentialsByClusterId cid).length = 0
  · simp [LookupWsDialer, hlen]
  · simp only [LookupWsDialer, hlen, if_false]
    exact ⟨h.1, by rw [h.1], h.2.1, h.2.2⟩

/-- C7: in one world (same credential list, same shuffle, same session registry),
`LookupWsTransport` and `LookupWsDialer` return the same serverAddress and the same found flag,
whatever the dispatcher and the process states they start from. -/
theorem lookups_select_alike (env : World) (w : Nat) (cid : String) (s s₂ : Process) :
    (LookupWsTransport env w cid s).1.1 = (LookupWsDialer env cid s₂).1.1 ∧
      (LookupWsTransport env w cid s).1.2.2 = (LookupWsDialer env cid s₂).1.2.2 := by
  by_cases hlen : (env.GetWsCredentialsByClusterId cid).length = 0
  · simp [LookupWsTransport, LookupWsDialer, hlen]
  · simp only [LookupWsTransport, LookupWsDialer, hlen, if_false]
    exact loops_agree env w cid _ s s₂

/-- C8: starting from a dispatcher as `NewWsTunnelDispatcher()` builds it, after any sequence of
`LookupWsTransport` calls on it the cache entry of each pair `(cid, key)` is `lastResolved`:
absent when no call of the sequence for `cid` succeeded by selecting `key`, and otherwise the
transport pointer and serverAddress returned by the most recent such call. -/
theorem cache_is_last_resolved (w : Nat) (calls : List Call) (s : Process) (cid key : String)
    (hnew : s.dispatchers w = NewWsTunnelDispatcher) :
    ((runCalls w calls s).dispatchers w).entry cid key = lastResolved w cid key calls s := by
  rw [runCalls_entry w cid key calls s, hnew]
  cases lastResolved w cid key calls s with
  | some e => rfl
  | none => rfl

theorem cache_is_last_resolved_witness :
    Process.init.dispatchers 0 = NewWsTunnelDispatcher ∧
      lastResolved 0 "c1" "k2" [⟨worldOne, "c1"⟩, ⟨worldMoved, "c1"⟩, ⟨worldDown, "c1"⟩]
        Process.init = some { httpTransport := 1, serverAddress := "b2" } ∧
      ((runCalls 0 [⟨worldOne, "c1"⟩, ⟨worldMoved, "c1"⟩, ⟨worldDown, "c1"⟩]
        Process.init).dispatchers 0).entry "c1" "k2" =
        lastResolved 0 "c1" "k2" [⟨worldOne, "c1"⟩, ⟨worldMoved, "c1"⟩, ⟨worldDown, "c1"⟩]
          Process.init :=
  ⟨rfl, by decide,
    cache_is_last_resolved 0 [⟨worldOne, "c1"⟩, ⟨worldMoved, "c1"⟩, ⟨worldDown, "c1"⟩]
      Process.init "c1" "k2" rfl⟩

/-- C9, as stated, fails: with the session of "k2" reported live and the tunnel server
handing out no dial primitive for it (the nil dialer), `LookupWsTransport` still returns
found = true with a freshly built transport whose `Dial` is nil and caches it, and
`LookupWsDialer` still returns found = true. -/
theorem dial_failure_reported_as_found :
    worldNoDial.HasSession "k2" = true ∧
      worldNoDial.Dialer "k2" (15 * Second) = none ∧
      (LookupWsTransport worldNoDial 0 "c1" Process.init).1 = ("a2", some 0, true) ∧
      (LookupWsTransport worldNoDial 0 "c1" Process.init).2.transports =
        [{ MaxIdleConnsPerHost := 10, Dial := none }] ∧
      ((LookupWsTransport worldNoDial 0 "c1" Process.init).2.dispatchers 0).entry "c1" "k2" =
        some { httpTransport := 0, serverAddress := "a2" } ∧
      (LookupWsDialer worldNoDial "c1" Process.init).1 = ("a2", none, true) := by
  decide

/-- C9, amended: when the tunnel server returns the nil dialer for the first credential `c` of
the shuffled sequence with a live session, neither lookup reports a failure: `LookupWsDialer`
returns `(c.ServerAddress, nil, true)`, and `LookupWsTransport` returns
`(c.ServerAddress, tp, true)` with a non-nil `tp` that the cache holds for `(cid, c.ServerKey)`;
on the rebuild path (no entry, or an entry with another address) `tp` is a newly allocated
transport with `MaxIdleConnsPerHost = 10` whose `Dial` is that nil dialer. -/
theorem nil_dialer_passed_through (env : World) (w : Nat) (cid : String) (s s₂ : Process)
    (pre post : List Credential) (c : Credential)
    (hseq : randShuffle env (env.GetWsCredentialsByClusterId cid) = pre ++ c :: post)
    (hpre : ∀ x ∈ pre, env.HasSession x.ServerKey = false)
    (hc : env.HasSession c.ServerKey = true)
    (hdial : env.Dialer c.ServerKey (15 * Second) = none) :
    (LookupWsDialer env cid s₂).1 = (c.ServerAddress, none, true) ∧
      ∃ tp, (LookupWsTransport env w cid s).1 = (c.ServerAddress, some tp, true) ∧
        ((LookupWsTransport env w cid s).2.dispatchers w).entry cid c.ServerKey =
          some { httpTransport := tp, serverAddress := c.ServerAddress } ∧
        ((∀ t, (s.dispatchers w).entry cid c.ServerKey = some t →
            t.serverAddress ≠ c.ServerAddress) →
          tp = s.transports.length ∧
            (LookupWsTransport env w cid s).2.transports =
              s.transports ++ [{ MaxIdleConnsPerHost := 10, Dial := none }]) := by
  have hmem : c ∈ env.GetWsCredentialsByClusterId cid := by
    refine (randShuffle_perm env _).mem_iff.1 ?_
    rw [hseq]
    simp
  constructor
  · rw [LookupWsDialer_nonempty env cid s₂ c hmem, hseq,
      dialerLoop_split env c post hc pre s₂ hpre, hdial]
  · rw [LookupWsTransport_nonempty env w cid s c hmem, hseq,
      transportLoop_split env w cid c post hc pre s hpre]
    obtain ⟨tp, hres, hentry, -⟩ :=
      lockedSection_entry env w cid c.ServerKey c.ServerAddress
        (s.logAll (queries (pre ++ [c])))
    refine ⟨tp, hres, hentry, ?_⟩
    intro hpath
    cases he : (s.dispatchers w).entry cid c.ServerKey with
    | none =>
      have hf := lockedSection_fresh env w cid c.ServerKey c.ServerAddress
        (s.logAll (queries (pre ++ [c]))) he
      rw [hf, rebuild_fst] at hres
      rw [hf, rebuild_transports, hdial]
      simp only [Prod.mk.injEq, Option.some.injEq] at hres
      exact ⟨hres.2.1.symm, rfl⟩
    | some t =>
      have hf := lockedSection_changed env w cid c.ServerKey c.ServerAddress
        (s.logAll (queries (pre ++ [c]))) t he (hpath t he)
      rw [hf, rebuild_fst] at hres
      rw [hf, rebuild_transports, hdial]
      simp only [Prod.mk.injEq, Option.some.injEq] at hres
      exact ⟨hres.2.1.symm, rfl⟩

theorem nil_dialer_passed_through_witness :
    randShuffle worldNoDial (worldNoDial.GetWsCredentialsByClusterId "c1") =
        [⟨"k3", "a3"⟩] ++ ⟨"k2", "a2"⟩ :: [⟨"k1", "a1"⟩] ∧
      worldNoDial.Dialer "k2" (15 * Second) = none ∧
      (LookupWsDialer worldNoDial "c1" Process.init).1 = ("a2", none, true) ∧
      ∃ tp, (LookupWsTransport worldNoDial 0 "c1" Process.init).1 = ("a2", some tp, true) ∧
        ((LookupWsTransport worldNoDial 0 "c1" Process.init).2.dispatchers 0).entry "c1" "k2" =
          some { httpTransport := tp, serverAddress := "a2" } ∧
        ((∀ t, (Process.init.dispatchers 0).entry "c1" "k2" = some t →
            t.serverAddress ≠ "a2") →
          tp = Process.init.transports.length ∧
            (LookupWsTransport worldNoDial 0 "c1" Process.init).2.transports =
              Process.init.transports ++ [{ MaxIdleConnsPerHost := 10, Dial := none }]) :=
  ⟨by decide, by decide,
    nil_dialer_passed_through worldNoDial 0 "c1" Process.init Process.init [⟨"k3", "a3"⟩]
      [⟨"k1", "a1"⟩] ⟨"k2", "a2"⟩ (by decide) (by decide) (by decide) (by decide)⟩

/-- C11: when `c` is the first credential of the shuffled sequence with a live session and the
call is on the rebuild path (no cache entry for `(cid, c.ServerKey)`, or one with another
address), the transport `LookupWsTransport` returns is the newly allocated one, it has
`MaxIdleConnsPerHost = 10` and as `Dial` the dialer the tunnel server gives for `c.ServerKey`
with a timeout of 15 seconds (15 * 10^9 ns), and that is the only `Dialer` call of the lookup;
`LookupWsDialer` returns the dialer requested with the same key and the same timeout. -/
theorem rebuilt_transport_settings (env : World) (w : Nat) (cid : String) (s s₂ : Process)
    (pre post : List Credential) (c : Credential)
    (hseq : randShuffle env (env.GetWsCredentialsByClusterId cid) = pre ++ c :: post)
    (hpre : ∀ x ∈ pre, env.HasSession x.ServerKey = false)
    (hc : env.HasSession c.ServerKey = true)
    (hpath : ∀ t, (s.dispatchers w).entry cid c.ServerKey = some t →
      t.serverAddress ≠ c.ServerAddress) :
    (LookupWsTransport env w cid s).1 = (c.ServerAddress, some s.transports.length, true) ∧
      (LookupWsTransport env w cid s).2.transports[s.transports.length]? =
        some { MaxIdleConnsPerHost := 10, Dial := env.Dialer c.ServerKey 15000000000 } ∧
      (LookupWsTransport env w cid s).2.transports.length = s.transports.length + 1 ∧
      (∃ closes, (LookupWsTransport env w cid s).2.trace =
          s.trace ++ queries (pre ++ [c]) ++ Event.Dialer c.ServerKey 15000000000 :: closes ∧
        ∀ e ∈ closes, ∀ key timeout, e ≠ Event.Dialer key timeout) ∧
      (LookupWsDialer env cid s₂).1 =
        (c.ServerAddress, env.Dialer c.ServerKey 15000000000, true) ∧
      (LookupWsDialer env cid s₂).2.trace =
        s₂.trace ++ queries (pre ++ [c]) ++ [Event.Dialer c.ServerKey 15000000000] := by
  have hmem : c ∈ env.GetWsCredentialsByClusterId cid := by
    refine (randShuffle_perm env _).mem_iff.1 ?_
    rw [hseq]
    simp
  have hsec : (15 : Nat) * Second = 15000000000 := by decide
  rw [LookupWsTransport_nonempty env w cid s c hmem, LookupWsDialer_nonempty env cid s₂ c hmem,
    hseq, transportLoop_split env w cid c post hc pre s hpre,
    dialerLoop_split env c post hc pre s₂ hpre,
    lockedSection_rebuild env w cid c.ServerKey c.ServerAddress
      (s.logAll (queries (pre ++ [c]))) hpath, hsec]
  refine ⟨?_, ?_, ?_, ?_, rfl, ?_⟩
  · rw [rebuild_fst]; rfl
  · rw [rebuild_transports, hsec]
    simp [logAll_transports]
  · rw [rebuild_transports]
    simp [logAll_transports]
  · rw [rebuild_trace, hsec]
    refine ⟨_, by rw [logAll_trace, List.append_assoc], ?_⟩
    intro e he
    cases hent : (s.dispatchers w).entry cid c.ServerKey with
    | none =>
      rw [logAll_dispatchers, hent] at he
      simp at he
    | some t =>
      rw [logAll_dispatchers, hent] at he
      simp only [List.mem_singleton] at he
      subst he
      intro key timeout h
      cases h
  · simp [logAll_trace, List.append_assoc]

theorem rebuilt_transport_settings_witness :
    randShuffle worldUp (worldUp.GetWsCredentialsByClusterId "c1") =
        [] ++ ⟨"k3", "a3"⟩ :: [⟨"k2", "a2"⟩, ⟨"k1", "a1"⟩] ∧
      (LookupWsTransport worldUp 0 "c1" Process.init).2.transports[0]? =
        some { MaxIdleConnsPerHost := 10, Dial := worldUp.Dialer "k3" 15000000000 } ∧
      (LookupWsDialer worldUp "c1" Process.init).1 =
        ("a3", worldUp.Dialer "k3" 15000000000, true) :=
  ⟨by decide,
    (rebuilt_transport_settings worldUp 0 "c1" Process.init Process.init []
      [⟨"k2", "a2"⟩, ⟨"k1", "a1"⟩] ⟨"k3", "a3"⟩ (by decide) (by decide) (by decide)
      (by intro t h; simp [Process.init, NewWsTunnelDispatcher, WsTunnelDispatcher.entry,
        GoMap.get] at h)).2.1,
    (rebuilt_transport_settings worldUp 0 "c1" Process.init Process.init []
      [⟨"k2", "a2"⟩, ⟨"k1", "a1"⟩] ⟨"k3", "a3"⟩ (by decide) (by decide) (by decide)
      (by intro t h; simp [Process.init, NewWsTunnelDispatcher, WsTunnelDispatcher.entry,
        GoMap.get] at h)).2.2.2.2.1⟩

/-- C13: whatever index pairs the shuffle hands to the swap callback, the sequence the loops
iterate is a permutation of the credential list fetched from the store; so when no fetched
credential has a live session, what `LookupWsTransport` and `LookupWsDialer` append to the
trace is one `HasSession` query per fetched credential, in shuffled order, and nothing else. -/
theorem shuffle_keeps_credentials (env : World) (w : Nat) (cid : String) (s s₂ : Process) :
    (randShuffle env (env.GetWsCredentialsByClusterId cid)).Perm
        (env.GetWsCredentialsByClusterId cid) ∧
      ((∀ c ∈ env.GetWsCredentialsByClusterId cid, env.HasSession c.ServerKey = false) →
        (queries (randShuffle env (env.GetWsCredentialsByClusterId cid))).Perm
            (queries (env.GetWsCredentialsByClusterId cid)) ∧
          (LookupWsTransport env w cid s).2.trace =
            s.trace ++ queries (randShuffle env (env.GetWsCredentialsByClusterId cid)) ∧
          (LookupWsDialer env cid s₂).2.trace =
            s₂.trace ++ queries (randShuffle env (env.GetWsCredentialsByClusterId cid))) := by
  have hperm := randShuffle_perm env (env.GetWsCredentialsByClusterId cid)
  refine ⟨hperm, fun hnone => ⟨queries_perm _ _ hperm, ?_, ?_⟩⟩
  · by_cases hlen : (env.GetWsCredentialsByClusterId cid).length = 0
    · have hnil := List.length_eq_zero.1 hlen
      simp [LookupWsTransport, hnil, randShuffle_nil, queries]
    · simp only [LookupWsTransport, hlen, if_false]
      rw [transportLoop_none env w cid _ s (fun c hc => hnone c (hperm.mem_iff.1 hc))]
      rfl
  · by_cases hlen : (env.GetWsCredentialsByClusterId cid).length = 0
    · have hnil := List.length_eq_zero.1 hlen
      simp [LookupWsDialer, hnil, randShuffle_nil, queries]
    · simp only [LookupWsDialer, hlen, if_false]
      rw [dialerLoop_none env _ s₂ (fun c hc => hnone c (hperm.mem_iff.1 hc))]
      rfl

theorem shuffle_keeps_credentials_witness :
    (∀ c ∈ worldDown.GetWsCredentialsByClusterId "c1", worldDown.HasSession c.ServerKey = false) ∧
      (LookupWsTransport worldDown 0 "c1" Process.init).2.trace =
        [Event.HasSession "k3", Event.HasSession "k2", Event.HasSession "k1"] ∧
      (LookupWsTransport worldDown 0 "c1" Process.init).2.trace =
        Process.init.trace ++
          queries (randShuffle worldDown (worldDown.GetWsCredentialsByClusterId "c1")) :=
  ⟨by decide, by decide,
    ((shuffle_keeps_credentials worldDown 0 "c1" Process.init Process.init).2
      (by decide)).2.1⟩

/-- C15: a call `LookupWsTransport(cid)` on dispatcher `w` leaves every other dispatcher as it
was, leaves every cache entry of `w` other than the one of `(cid, selected ServerKey)` as it
was, and removes no entry; when it returns found = false, all dispatchers and the transport
heap are unchanged and what it appends to the trace holds no `CloseIdleConnections` call. -/
theorem lookup_writes_one_entry (env : World) (w : Nat) (cid : String) (s : Process) :
    (∀ w₂, w₂ ≠ w → (LookupWsTransport env w cid s).2.dispatchers w₂ = s.dispatchers w₂) ∧
      (∀ cid₂ k₂, (∀ c, selected env cid = some c → ¬ (cid₂ = cid ∧ k₂ = c.ServerKey)) →
        ((LookupWsTransport env w cid s).2.dispatchers w).entry cid₂ k₂ =
          (s.dispatchers w).entry cid₂ k₂) ∧
      (∀ cid₂ k₂ t, (s.dispatchers w).entry cid₂ k₂ = some t →
        ∃ t₂, ((LookupWsTransport env w cid s).2.dispatchers w).entry cid₂ k₂ = some t₂) ∧
      ((LookupWsTransport env w cid s).1.2.2 = false →
        (LookupWsTransport env w cid s).2.dispatchers = s.dispatchers ∧
          (LookupWsTransport env w cid s).2.transports = s.transports ∧
          ∃ added, (LookupWsTransport env w cid s).2.trace = s.trace ++ added ∧
            ∀ tp, Event.CloseIdleConnections tp ∉ added) := by
  cases hsel : selected env cid with
  | none =>
    obtain ⟨l, hl⟩ := lookup_selected_none env w cid s hsel
    rw [hl]
    refine ⟨fun _ _ => rfl, fun _ _ _ => rfl, fun _ _ t ht => ⟨t, ht⟩, fun _ =>
      ⟨rfl, rfl, queries l, rfl, ?_⟩⟩
    intro tp htp
    simp [queries] at htp
  | some c =>
    obtain ⟨l, hl⟩ := lookup_selected_some env w cid s c hsel
    rw [hl]
    obtain ⟨h, hres, hentry, -⟩ :=
      lockedSection_entry env w cid c.ServerKey c.ServerAddress (s.logAll (queries l))
    refine ⟨?_, ?_, ?_, ?_⟩
    · intro w₂ hw
      exact lockedSection_dispatchers_ne env w w₂ cid c.ServerKey c.ServerAddress _ hw
    · intro cid₂ k₂ hne
      exact lockedSection_entry_ne env w cid c.ServerKey c.ServerAddress cid₂ k₂ _
        (hne c rfl)
    · intro cid₂ k₂ t ht
      by_cases hpair : cid₂ = cid ∧ k₂ = c.ServerKey
      · obtain ⟨h₁, h₂⟩ := hpair
        subst h₁ h₂
        exact ⟨_, hentry⟩
      · rw [lockedSection_entry_ne env w cid c.ServerKey c.ServerAddress cid₂ k₂ _ hpair]
        exact ⟨t, ht⟩
    · intro hfalse
      rw [hres] at hfalse
      simp at hfalse

theorem lookup_writes_one_entry_witness :
    (LookupWsTransport worldDown 0 "c1"
        (LookupWsTransport worldOne 0 "c1" Process.init).2).1.2.2 = false ∧
      (LookupWsTransport worldDown 0 "c1"
        (LookupWsTransport worldOne 0 "c1" Process.init).2).2.transports =
        (LookupWsTransport worldOne 0 "c1" Process.init).2.transports ∧
      ((LookupWsTransport worldMoved 0 "c1"
        (LookupWsTransport worldOne 0 "c2" Process.init).2).2.dispatchers 0).entry "c2" "k2" =
        ((LookupWsTransport worldOne 0 "c2" Process.init).2.dispatchers 0).entry "c2" "k2" :=
  ⟨by decide,
    ((lookup_writes_one_entry worldDown 0 "c1"
      (LookupWsTransport worldOne 0 "c1" Process.init).2).2.2.2 (by decide)).2.1,
    (lookup_writes_one_entry worldMoved 0 "c1"
      (LookupWsTransport worldOne 0 "c2" Process.init).2).2.1 "c2" "k2"
      (by intro c _ h; exact absurd h.1 (by decide))⟩

end Mesos

namespace Utils

/-! ## Nested lookup -/

theorem GetItems_of_reaches (m : List (String × Value)) (p : List String) (v : Value)
    (h : Reaches m p v) : GetItems m p = (v, none) := by
  induction h with
  | last m k v hk => simp [GetItems, hk]
  | step m sub k k₂ ks v hk _ ih =>
    rw [GetItems]
    simp only [hk]
    exact ih

theorem GetItems_of_fails (m : List (String × Value)) (p : List String) (h : Fails m p) :
    (GetItems m p).1 = Value.nil ∧ (GetItems m p).2 ≠ none := by
  induction h with
  | empty m => simp [GetItems]
  | absent m k ks hk => simp [GetItems, hk]
  | notMap m k k₂ ks v hk hv =>
    cases v with
    | map sub => exact absurd rfl (hv sub)
    | nil => simp [GetItems, hk]
    | int n => simp [GetItems, hk]
    | str s => simp [GetItems, hk]
    | mapSlice l => simp [GetItems, hk]
  | deeper m sub k k₂ ks hk _ ih =>
    rw [GetItems]
    simp only [hk]
    exact ih

theorem fails_or_reaches :
    ∀ (p : List String) (m : List (String × Value)), Fails m p ∨ ∃ v, Reaches m p v
  | [], m => Or.inl (Fails.empty m)
  | [k], m => by
    cases hk : index m k with
    | none => exact Or.inl (Fails.absent m k [] hk)
    | some v => exact Or.inr ⟨v, Reaches.last m k v hk⟩
  | k :: k₂ :: ks, m => by
    cases hk : index m k with
    | none => exact Or.inl (Fails.absent m k _ hk)
    | some v =>
      cases v with
      | map sub =>
        rcases fails_or_reaches (k₂ :: ks) sub with hf | ⟨v, hv⟩
        · exact Or.inl (Fails.deeper m sub k k₂ ks hk hf)
        · exact Or.inr ⟨v, Reaches.step m sub k k₂ ks v hk hv⟩
      | nil => exact Or.inl (Fails.notMap m k k₂ ks _ hk (by intro sub h; cases h))
      | int n => exact Or.inl (Fails.notMap m k k₂ ks _ hk (by intro sub h; cases h))
      | str s => exact Or.inl (Fails.notMap m k k₂ ks _ hk (by intro sub h; cases h))
      | mapSlice l => exact Or.inl (Fails.notMap m k k₂ ks _ hk (by intro sub h; cases h))

/-- C12: for every nested map `m` and key path `p`, `GetItems m p` is the reference nested
lookup. Either the lookup fails (`p` is empty, a key of `p` is absent at its level, or the value
under a non-final key is not a `map[string]interface{}`) or it reaches a value; when it fails
`GetItems` returns `(nil, err)` with `err` non-nil, and when it reaches `v` (which may be nil, a
scalar or a map) `GetItems` returns `(v, nil)`. -/
theorem GetItems_nested_lookup (m : List (String × Value)) (p : List String) :
    (Fails m p ∨ ∃ v, Reaches m p v) ∧
      (Fails m p → (GetItems m p).1 = Value.nil ∧ (GetItems m p).2 ≠ none) ∧
      (∀ v, Reaches m p v → GetItems m p = (v, none)) :=
  ⟨fails_or_reaches p m, GetItems_of_fails m p, GetItems_of_reaches m p⟩

theorem GetItems_nested_lookup_witness :
    GetItems deploySpec ["replicas"] = (Value.int 3, none) ∧
      GetItems deploySpec ["strategy", "type"] = (Value.str "RollingUpdate", none) ∧
      GetItems deploySpec ["template", "metadata", "creationTimestamp"] = (Value.nil, none) ∧
      ((GetItems deploySpec ["replicas", "testKey"]).1 = Value.nil ∧
        (GetItems deploySpec ["replicas", "testKey"]).2 ≠ none) ∧
      ((GetItems deploySpec ["selector", "spec"]).1 = Value.nil ∧
        (GetItems deploySpec ["selector", "spec"]).2 ≠ none) ∧
      ((GetItems deploySpec []).1 = Value.nil ∧ (GetItems deploySpec []).2 ≠ none) :=
  ⟨(GetItems_nested_lookup deploySpec ["replicas"]).2.2 _ (Reaches.last _ _ _ rfl),
    (GetItems_nested_lookup deploySpec ["strategy", "type"]).2.2 _
      (Reaches.step _ _ _ _ _ _ rfl (Reaches.last _ _ _ rfl)),
    (GetItems_nested_lookup deploySpec ["template", "metadata", "creationTimestamp"]).2.2 _
      (Reaches.step _ _ _ _ _ _ rfl (Reaches.step _ _ _ _ _ _ rfl (Reaches.last _ _ _ rfl))),
    (GetItems_nested_lookup deploySpec ["replicas", "testKey"]).2.1
      (Fails.notMap _ _ _ _ (Value.int 3) rfl (by intro sub h; cases h)),
    (GetItems_nested_lookup deploySpec ["selector", "spec"]).2.1
      (Fails.deeper _ _ _ _ _ rfl (Fails.absent _ _ _ rfl)),
    (GetItems_nested_lookup deploySpec []).2.1 (Fails.empty _)⟩

end Utils

namespace MultiRelease

/-! ## Parameter checks of the cancel action -/

theorem utf8ByteSize_go_pos (c : Char) (cs : List Char) :
    0 < String.utf8ByteSize.go (c :: cs) := by
  have := Char.utf8Size_pos c
  simp only [String.utf8ByteSize.go]
  omega

theorem len_eq_zero_iff (s : String) : len s = 0 ↔ s = "" := by
  obtain ⟨cs⟩ := s
  cases cs with
  | nil => simp [len, String.utf8ByteSize, String.utf8ByteSize.go]
  | cons c cs =>
    have hpos := utf8ByteSize_go_pos c cs
    constructor
    · intro h
      simp only [len, String.utf8ByteSize] at h
      omega
    · intro h
      have := congrArg String.data h
      simp at this

/-- What `verify` returns, check by check. -/
theorem verify_eq (lim : Limits) (act : CancelAction) :
    act.verify lim =
      if act.req.Bid = "" then some "invalid params, bid missing"
      else if len act.req.Bid > lim.BSCPIDLENLIMIT then some "invalid params, bid too long"
      else if act.req.MultiReleaseid = "" then some "invalid params, multi releaseid missing"
      else if len act.req.MultiReleaseid > lim.BSCPIDLENLIMIT then
        some "invalid params, multi releaseid too long"
      else if act.req.Operator = "" then some "invalid params, operator missing"
      else if len act.req.Operator > lim.BSCPNAMELENLIMIT then
        some "invalid params, operator too long"
      else none := by
  simp only [CancelAction.verify, len_eq_zero_iff]

/-- C14: for every request, `Input` on the action built by `NewCancelAction` returns an error
exactly when `Bid` or `MultiReleaseid` is empty or longer (in bytes) than `BSCPIDLENLIMIT`, or
`Operator` is empty or longer than `BSCPNAMELENLIMIT`. In that case the response holds
`E_DM_PARAMS_INVALID` and the message of the returned error, which is the message of the first
failing check in the order bid, multi releaseid, operator; otherwise the response keeps `E_OK`
and "OK". -/
theorem cancel_input_checks (lim : Limits) (req : CancelMultiReleaseReq)
    (resp : CancelMultiReleaseResp) :
    (((NewCancelAction req resp).Input lim).1 ≠ none ↔ invalidParams lim req) ∧
      (invalidParams lim req →
        ((NewCancelAction req resp).Input lim).2.resp.ErrCode = ErrCode.E_DM_PARAMS_INVALID ∧
          ((NewCancelAction req resp).Input lim).1 =
            some ((NewCancelAction req resp).Input lim).2.resp.ErrMsg) ∧
      (tooShortOrLong req.Bid lim.BSCPIDLENLIMIT →
        ((NewCancelAction req resp).Input lim).1 =
          some (if req.Bid = "" then "invalid params, bid missing"
            else "invalid params, bid too long")) ∧
      (¬ tooShortOrLong req.Bid lim.BSCPIDLENLIMIT →
        tooShortOrLong req.MultiReleaseid lim.BSCPIDLENLIMIT →
        ((NewCancelAction req resp).Input lim).1 =
          some (if req.MultiReleaseid = "" then "invalid params, multi releaseid missing"
            else "invalid params, multi releaseid too long")) ∧
      (¬ tooShortOrLong req.Bid lim.BSCPIDLENLIMIT →
        ¬ tooShortOrLong req.MultiReleaseid lim.BSCPIDLENLIMIT →
        tooShortOrLong req.Operator lim.BSCPNAMELENLIMIT →
        ((NewCancelAction req resp).Input lim).1 =
          some (if req.Operator = "" then "invalid params, operator missing"
            else "invalid params, operator too long")) ∧
      (¬ invalidParams lim req →
        ((NewCancelAction req resp).Input lim).1 = none ∧
          ((NewCancelAction req resp).Input lim).2.resp.ErrCode = ErrCode.E_OK ∧
          ((NewCancelAction req resp).Input lim).2.resp.ErrMsg = "OK") := by
  simp only [CancelAction.Input, verify_eq, invalidParams, tooShortOrLong]
  simp only [NewCancelAction, CancelAction.Err]
  by_cases h1 : req.Bid = ""
  · simp [h1]
  · by_cases h2 : len req.Bid > lim.BSCPIDLENLIMIT
    · simp [h1, h2]
    · by_cases h3 : req.MultiReleaseid = ""
      · simp [h1, h2, h3]
      · by_cases h4 : len req.MultiReleaseid > lim.BSCPIDLENLIMIT
        · simp [h1, h2, h3, h4]
        · by_cases h5 : req.Operator = ""
          · simp [h1, h2, h3, h4, h5]
          · by_cases h6 : len req.Operator > lim.BSCPNAMELENLIMIT
            · simp [h1, h2, h3, h4, h5, h6]
            · simp [h1, h2, h3, h4, h5, h6]

theorem cancel_input_checks_witness :
    tooShortOrLong "" limits.BSCPIDLENLIMIT ∧
      ((NewCancelAction ⟨7, "b1", "", "op"⟩ ⟨0, ErrCode.E_DM_DB_EXEC_ERR, "x"⟩).Input limits).1 =
        some "invalid params, multi releaseid missing" ∧
      ((NewCancelAction ⟨7, "b1", "", "op"⟩ ⟨0, ErrCode.E_DM_DB_EXEC_ERR, "x"⟩).Input
        limits).2.resp.ErrCode = ErrCode.E_DM_PARAMS_INVALID :=
  ⟨Or.inl rfl,
    (cancel_input_checks limits ⟨7, "b1", "", "op"⟩ ⟨0, ErrCode.E_DM_DB_EXEC_ERR, "x"⟩).2.2.2.1
      (by simp [tooShortOrLong, len, limits]; decide) (Or.inl rfl),
    ((cancel_input_checks limits ⟨7, "b1", "", "op"⟩ ⟨0, ErrCode.E_DM_DB_EXEC_ERR, "x"⟩).2.1
      (Or.inr (Or.inl (Or.inl rfl)))).1⟩

end MultiRelease
